import Mathlib

/-!
# ExoPredict — verification of the batch pipeline, tuning client and form model

Shallow embedding of the TypeScript frontend in `src/`:

* `src/lib/definitions.ts` — the Kepler/TESS field schemas;
* `src/components/batch-prediction.tsx` — `runPredictions` (validation,
  chunked dispatch, progress reporting, result rows);
* `src/app/actions.ts` — `getPrediction`, `getTunedPrediction`,
  `getBatchPredictions`, `tuneModel`;
* `src/components/model-tuning.tsx` — the 5-second tuning-status poll loop;
* `src/app/page.tsx` — the schema-change effect of the single-prediction tab.

JavaScript numbers are modelled as rationals; the JS values that can appear
in a parsed spreadsheet cell or a feature vector (`undefined`, `NaN`,
numbers, strings) are modelled by the inductive type `JsVal`.  Network
calls are modelled by a `Fetch` oracle mapping an endpoint and a payload to
an `Except` result; `Promise.all` over a list of calls is modelled by
`promiseAll`, which fails whenever any element fails.
-/

namespace ExoPredict

/-! ## Schemas (`src/lib/definitions.ts`) -/

inductive ModelType
  | Kepler
  | TESS
deriving DecidableEq, Repr

structure FormFieldConfig where
  name : String
  label : String
  placeholder : String
  tooltip : String
deriving DecidableEq, Repr

def keplerFields : List FormFieldConfig :=
  [ { name := "koi_period", label := "Orbital Period", placeholder := "e.g., 4.57", tooltip := "Orbital Period (days)" },
    { name := "koi_time0bk", label := "Time of First Transit", placeholder := "e.g., 133.77", tooltip := "Time of First Transit (BKJD)" },
    { name := "koi_impact", label := "Impact Parameter", placeholder := "e.g., 0.14", tooltip := "Impact Parameter" },
    { name := "koi_duration", label := "Transit Duration", placeholder := "e.g., 2.94", tooltip := "Transit Duration (hours)" },
    { name := "koi_depth", label := "Transit Depth", placeholder := "e.g., 615.8", tooltip := "Transit Depth (ppm)" },
    { name := "koi_prad", label := "Planet Radius", placeholder := "e.g., 2.26", tooltip := "Planet Radius (Earth radii)" },
    { name := "koi_teq", label := "Equilibrium Temperature", placeholder := "e.g., 793", tooltip := "Equilibrium Temperature (K)" },
    { name := "koi_insol", label := "Insolation", placeholder := "e.g., 93.59", tooltip := "Insolation (Earth flux)" },
    { name := "koi_model_snr", label := "Model SNR", placeholder := "e.g., 35.8", tooltip := "Model Signal-to-Noise Ratio" },
    { name := "koi_steff", label := "Star Temperature", placeholder := "e.g., 5455", tooltip := "Stellar Effective Temperature (K)" },
    { name := "koi_slogg", label := "Star Surface Gravity", placeholder := "e.g., 4.467", tooltip := "Stellar Surface Gravity (log10(cm/s^2))" },
    { name := "koi_srad", label := "Star Radius", placeholder := "e.g., 0.927", tooltip := "Stellar Radius (solar radii)" },
    { name := "koi_kepmag", label := "Kepler Magnitude", placeholder := "e.g., 15.347", tooltip := "Kepler-band Magnitude" } ]

def tessFields : List FormFieldConfig :=
  [ { name := "pl_orbper", label := "Orbital Period", placeholder := "e.g., 3.54", tooltip := "Orbital Period (days)" },
    { name := "pl_trandurh", label := "Transit Duration", placeholder := "e.g., 1.91", tooltip := "Transit Duration (hours)" },
    { name := "pl_trandep", label := "Transit Depth", placeholder := "e.g., 1234.5", tooltip := "Transit Depth (ppm)" },
    { name := "pl_rade", label := "Planet Radius", placeholder := "e.g., 1.21", tooltip := "Planet Radius (Earth radii)" },
    { name := "pl_insol", label := "Insolation", placeholder := "e.g., 888.3", tooltip := "Insolation (Earth flux)" },
    { name := "pl_eqt", label := "Equilibrium Temperature", placeholder := "e.g., 1636", tooltip := "Equilibrium Temperature (K)" },
    { name := "st_teff", label := "Star Temperature", placeholder := "e.g., 6117", tooltip := "Stellar Effective Temperature (K)" },
    { name := "st_logg", label := "Star Surface Gravity", placeholder := "e.g., 4.23", tooltip := "Stellar Surface Gravity (log10(cm/s^2))" },
    { name := "st_rad", label := "Star Radius", placeholder := "e.g., 1.54", tooltip := "Stellar Radius (solar radii)" },
    { name := "st_dist", label := "Star Distance", placeholder := "e.g., 149.6", tooltip := "Distance to the star (parsecs)" },
    { name := "st_tmag", label := "Star Magnitude", placeholder := "e.g., 9.54", tooltip := "TESS-band Magnitude" } ]

/-! ## JavaScript values and number parsing -/

/-- The JS values relevant to the batch pipeline: `undefined`, `NaN`,
finite numbers (modelled as rationals) and strings. -/
inductive JsVal
  | undef
  | nan
  | num (q : ℚ)
  | str (s : String)
deriving DecidableEq, Repr

/-- A parsed spreadsheet row (`sheet_to_json` output): an association list
from column name to cell value. -/
abbrev DataRow := List (String × JsVal)

/-- JS property access `row[name]`: the bound value, or `undefined`. -/
def jsGet (row : DataRow) (k : String) : JsVal :=
  (row.lookup k).getD .undef

def isJsSpace (c : Char) : Bool :=
  c = ' ' || c = '\t' || c = '\n' || c = '\r'

/-- Value of a list of decimal digit characters. -/
def digitsVal (ds : List Char) : ℕ :=
  ds.foldl (fun a c => a * 10 + (c.toNat - 48)) 0

/-- Unsigned part of JS `parseFloat`: leading digits, optionally a dot and
fraction digits; `none` (NaN) when no digit is found. Trailing garbage is
ignored, as in JS. -/
def jsParseFloatCore (l : List Char) : Option ℚ :=
  let intPart := l.takeWhile Char.isDigit
  let rest := l.dropWhile Char.isDigit
  match rest with
  | '.' :: r2 =>
    let fracPart := r2.takeWhile Char.isDigit
    if intPart.isEmpty && fracPart.isEmpty then none
    else some ((digitsVal intPart : ℚ) + (digitsVal fracPart : ℚ) / ((10 : ℚ) ^ fracPart.length))
  | _ => if intPart.isEmpty then none else some (digitsVal intPart : ℚ)

/-- JS `parseFloat` on a string: skip leading whitespace, optional sign,
then an unsigned decimal number; `none` models `NaN`. -/
def jsParseFloat (s : String) : Option ℚ :=
  match s.data.dropWhile isJsSpace with
  | '-' :: r => (jsParseFloatCore r).map (fun q => -q)
  | '+' :: r => jsParseFloatCore r
  | l => jsParseFloatCore l

/-- Feature conversion in `runPredictions`:
`typeof val === 'string' ? parseFloat(val) : (val as number)`. -/
def toFeature : JsVal → JsVal
  | .str s =>
    match jsParseFloat s with
    | some q => .num q
    | none => .nan
  | v => v

/-! ## Prediction client (`src/app/actions.ts`) -/

structure Payload where
  model : String
  features : List JsVal
deriving DecidableEq, Repr

structure PredResult where
  prediction : String
  confidence : ℚ
  probabilities : List (String × ℚ)
deriving DecidableEq, Repr

/-- The network oracle: endpoint path and payload to outcome. -/
def Fetch : Type := String → Payload → Except String PredResult

def getPrediction (fetch : Fetch) (payload : Payload) : Except String PredResult :=
  fetch "/predict" payload

def getTunedPrediction (fetch : Fetch) (payload : Payload) : Except String PredResult :=
  fetch "/predict_tuned" payload

/-- `Promise.all`: succeeds with the list of all results, rejects as a whole
when any element rejects. -/
def promiseAll {α : Type} : List (Except String α) → Except String (List α)
  | [] => .ok []
  | .ok a :: rest => (promiseAll rest).map (fun l => a :: l)
  | .error e :: _ => .error e

/-- `getBatchPredictions(payloads, useTuned)`:
`Promise.all(payloads.map(useTuned ? getTunedPrediction : getPrediction))`. -/
def getBatchPredictions (fetch : Fetch) (payloads : List Payload) (useTuned : Bool) :
    Except String (List PredResult) :=
  promiseAll (payloads.map
    (fun p => if useTuned then getTunedPrediction fetch p else getPrediction fetch p))

/-! ## Batch runner (`src/components/batch-prediction.tsx`) -/

/-- `Number.prototype.toFixed(2)` followed by `parseFloat`, over ℚ:
round to the nearest multiple of 1/100, ties toward the larger value. -/
def toFixed2 (x : ℚ) : ℚ := ((x * 100 + 1/2).floor : ℚ) / 100

/-- A result row: `{...originalRow, prediction, confidence}` where
`confidence` is `parseFloat((c * 100).toFixed(2))`. -/
structure ResultRow where
  base : DataRow
  prediction : String
  confidence : ℚ
deriving DecidableEq, Repr

/-- JS property access on a result row: the spread keys `prediction` and
`confidence` shadow any same-named column of the original row. -/
def ResultRow.get (r : ResultRow) (k : String) : JsVal :=
  if k = "prediction" then .str r.prediction
  else if k = "confidence" then .num r.confidence
  else jsGet r.base k

def mkResultRow (row : DataRow) (b : PredResult) : ResultRow :=
  { base := row, prediction := b.prediction, confidence := toFixed2 (b.confidence * 100) }

inductive BatchError
  | emptyFile
  | missingColumns (cols : List String)
  | chunkFailed (rowStart : ℕ) (msg : String)
deriving DecidableEq, Repr

/-- The observable outcome of a `runPredictions` call: the per-chunk payload
lists handed to `getBatchPredictions` in order, the accumulated result rows,
the successive values passed to `setProgress`, and the surfaced error. -/
structure BatchOutcome where
  calls : List (List Payload)
  results : List ResultRow
  progress : List ℚ
  error : Option BatchError
deriving DecidableEq, Repr

def batchSize : ℕ := 10

def modelTypeLower : ModelType → String
  | .Kepler => "kepler"
  | .TESS => "tess"

def activeFields (modelType : ModelType) : List FormFieldConfig :=
  if modelType = .Kepler then keplerFields else tessFields

def activeFieldNames (modelType : ModelType) : List String :=
  (activeFields modelType).map (fun f => f.name)

/-- The required columns absent from the first row's key set. -/
def missingColumnsOf (modelType : ModelType) (firstRow : DataRow) : List String :=
  (activeFieldNames modelType).filter
    (fun nm => ! (firstRow.map (fun kv => kv.1)).contains nm)

def useTunedOf (selectedModel : String) : Bool := selectedModel != "default"

def modelIdOf (modelType : ModelType) (selectedModel : String) : String :=
  if useTunedOf selectedModel then selectedModel else modelTypeLower modelType

/-- One payload per row: the model identifier and the features read from the
schema's field names in order. -/
def mkPayload (modelId : String) (fieldNames : List String) (row : DataRow) : Payload :=
  { model := modelId, features := fieldNames.map (fun nm => toFeature (jsGet row nm)) }

/-- The chunked dispatch loop `for (let i = 0; i < rows.length; i += batchSize)`:
take a slice of `batchSize` rows, hand its payloads to `bp`
(`getBatchPredictions`), append the zipped result rows, report progress
`((i + batch.length) / total) * 100`, and on any error stop, surfacing the
failing chunk's starting row offset `i + 1`.  The structural `fuel`
parameter bounds the number of iterations; every call site passes
`rows.length`, which suffices since each iteration consumes at least one
row. -/
def processChunks (bp : List Payload → Except String (List PredResult))
    (mk : DataRow → Payload) (total : ℕ) :
    ℕ → List DataRow → ℕ → BatchOutcome
  | _, [], _ => { calls := [], results := [], progress := [], error := none }
  | 0, _ :: _, _ => { calls := [], results := [], progress := [], error := none }
  | fuel + 1, r :: rs, i =>
    let batch := (r :: rs).take batchSize
    let rest := (r :: rs).drop batchSize
    let payloads := batch.map mk
    match bp payloads with
    | .error msg =>
      { calls := [payloads], results := [], progress := [],
        error := some (.chunkFailed (i + 1) msg) }
    | .ok bres =>
      let tail := processChunks bp mk total fuel rest (i + batch.length)
      { calls := payloads :: tail.calls,
        results := List.zipWith mkResultRow batch bres ++ tail.results,
        progress := (((i + batch.length : ℕ) : ℚ) / (total : ℚ)) * 100 :: tail.progress,
        error := tail.error }

/-- `runPredictions(rows)`: empty-file check, required-column check against
the first row's keys, then the chunked dispatch loop. -/
def runPredictions (fetch : Fetch) (modelType : ModelType) (selectedModel : String)
    (rows : List DataRow) : BatchOutcome :=
  match rows with
  | [] => { calls := [], results := [], progress := [], error := some .emptyFile }
  | r :: rs =>
    let missing := missingColumnsOf modelType r
    if missing = [] then
      processChunks (fun ps => getBatchPredictions fetch ps (useTunedOf selectedModel))
        (mkPayload (modelIdOf modelType selectedModel) (activeFieldNames modelType))
        (r :: rs).length (r :: rs).length (r :: rs) 0
    else
      { calls := [], results := [], progress := [],
        error := some (.missingColumns missing) }

/-- The payloads of the `k`-th chunk: rows `k * batchSize` up to
`(k + 1) * batchSize` (exclusive), one payload per row. -/
def chunkPayloads (modelType : ModelType) (selectedModel : String)
    (rows : List DataRow) (k : ℕ) : List Payload :=
  ((rows.drop (k * batchSize)).take batchSize).map
    (mkPayload (modelIdOf modelType selectedModel) (activeFieldNames modelType))

/-- Number of chunks issued for `n` rows: `ceil(n / batchSize)`. -/
def numChunks (n : ℕ) : ℕ := (n + batchSize - 1) / batchSize

/-! ## Tuning client (`tuneModel` in `src/app/actions.ts`)

JS strings are modelled as `List Char` here so that `split`, `trim` and
`parseInt` can be given directly as structural recursions. -/

abbrev JsStr := List Char

/-- Helper for `String.prototype.split(sep)` with a one-character separator:
returns the first piece and the remaining pieces. -/
def jsSplitAux (sep : Char) : JsStr → JsStr × List JsStr
  | [] => ([], [])
  | c :: cs =>
    let (p, ps) := jsSplitAux sep cs
    if c = sep then ([], p :: ps) else (c :: p, ps)

/-- JS `str.split(sep)` for a one-character separator; on the empty string
it returns `[""]`, as in JS. -/
def jsSplit (sep : Char) (s : JsStr) : List JsStr :=
  ((jsSplitAux sep s).1) :: (jsSplitAux sep s).2

/-- JS `str.trim()`. -/
def jsTrim (s : JsStr) : JsStr :=
  ((s.dropWhile isJsSpace).reverse.dropWhile isJsSpace).reverse

def jsParseIntCore (l : JsStr) : Option ℤ :=
  let ds := l.takeWhile Char.isDigit
  if ds.isEmpty then none else some (digitsVal ds : ℤ)

/-- JS `parseInt(s, 10)`: skip leading whitespace, optional sign, then
leading decimal digits; `none` models `NaN`. -/
def jsParseInt (s : JsStr) : Option ℤ :=
  match s.dropWhile isJsSpace with
  | '-' :: r => (jsParseIntCore r).map (fun n => -n)
  | '+' :: r => jsParseIntCore r
  | l => jsParseIntCore l

/-- `parseStringList` from `tuneModel`:
`str.split(',').map(s => parseInt(s.trim(), 10))`. -/
def parseStringList (s : JsStr) : List (Option ℤ) :=
  (jsSplit ',' s).map (fun piece => jsParseInt (jsTrim piece))

/-- Comma-join, the inverse direction of `split(',')`. -/
def joinSep (sep : Char) : List JsStr → JsStr
  | [] => []
  | [p] => p
  | p :: q :: ps => p ++ sep :: joinSep sep (q :: ps)

/-- The request `tuneModel` posts: endpoint `/tune_model` and body
`{model: modelName.toLowerCase(), hyperparameters: {n_estimators: ..., max_depth: ...}}`. -/
structure TuneRequest where
  url : String
  model : JsStr
  hyperparameters : List (String × List (Option ℤ))
deriving DecidableEq, Repr

def tuneModelRequest (modelName nEstimators maxDepth : JsStr) : TuneRequest :=
  { url := "/tune_model",
    model := modelName.map Char.toLower,
    hyperparameters :=
      [("n_estimators", parseStringList nEstimators),
       ("max_depth", parseStringList maxDepth)] }

/-! ## Tuning-status poll loop (`ModelTuning` component) -/

structure PollState where
  pollingTaskId : Option String
  isTuning : Bool
deriving DecidableEq, Repr

/-- Body of a `/tuning_status/{task_id}` response. -/
inductive TuningStatusResp
  | pending
  | success (modelName : String) (accuracy : ℚ)
  | failure (error : Option String)
deriving DecidableEq, Repr

/-- Observable effects of one interval tick. -/
inductive PollEvent
  | polled (taskId : String)
  | successToast (modelName : String) (accuracy : ℚ)
  | failureToast (msg : String)
  | pollErrorToast (msg : String)
  | modelTunedCallback
deriving DecidableEq, Repr

/-- One tick of the `setInterval` callback: while a task id is set, poll
`getTuningStatus`; `PENDING` leaves the state unchanged, `SUCCESS` reports
the result and clears the task id, `FAILURE` and fetch errors surface the
error and clear the task id.  With no task id set, the effect's cleanup has
cleared the interval and a tick does nothing. -/
def pollTick (s : PollState) (resp : Except String TuningStatusResp) :
    PollState × List PollEvent :=
  match s.pollingTaskId with
  | none => (s, [])
  | some tid =>
    match resp with
    | .ok .pending => (s, [.polled tid])
    | .ok (.success mn acc) =>
      ({ pollingTaskId := none, isTuning := false },
       [.polled tid, .successToast mn acc, .modelTunedCallback])
    | .ok (.failure err) =>
      ({ pollingTaskId := none, isTuning := false },
       [.polled tid, .failureToast (err.getD "An unknown error occurred during tuning.")])
    | .error msg =>
      ({ pollingTaskId := none, isTuning := false },
       [.polled tid, .pollErrorToast msg])

/-- Iterate `pollTick` over a schedule of responses, collecting events. -/
def pollRun (s : PollState) : List (Except String TuningStatusResp) →
    PollState × List PollEvent
  | [] => (s, [])
  | resp :: rest =>
    let t := pollTick s resp
    let u := pollRun t.1 rest
    (u.1, t.2 ++ u.2)

/-- The poll interval passed to `setInterval`, in milliseconds. -/
def pollIntervalMs : ℕ := 5000

/-! ## Schema-change effect of the single-prediction tab (`src/app/page.tsx`) -/

inductive PageAction
  | resetForm (vals : List (String × String))
  | clearPrediction
  | setSelectedModel (m : String)
  | toastParamsApplied
deriving DecidableEq, Repr

def modelTypeName : ModelType → String
  | .Kepler => "Kepler"
  | .TESS => "TESS"

/-- `getInitialValues`: every field of the schema mapped to `""`. -/
def getInitialValues (fields : List FormFieldConfig) : List (String × String) :=
  fields.map (fun f => (f.name, ""))

/-- The `useEffect` that runs when `modelType` changes: reset the form to the
new schema's initial values, clear the prediction, reset the selected model,
then (only when the URL query carries a matching `modelType` and at least one
recognised field) re-reset the form to the query-supplied values. -/
def schemaChangeEffect (modelType : ModelType) (searchParams : List (String × String)) :
    List PageAction :=
  let newFields := if modelType = .Kepler then keplerFields else tessFields
  let base : List PageAction :=
    [.resetForm (getInitialValues newFields), .clearPrediction, .setSelectedModel "default"]
  if searchParams = [] then base
  else
    match searchParams.lookup "modelType" with
    | none => base
    | some mq =>
      if mq = modelTypeName modelType then
        let fieldNames := newFields.map (fun f => f.name)
        let valuesToSet := searchParams.filter (fun kv => fieldNames.contains kv.1)
        if valuesToSet = [] then base
        else base ++ [.resetForm valuesToSet, .toastParamsApplied]
      else base

/-! ## Helper lemmas -/

theorem promiseAll_map_ok {α β : Type} (f : α → Except String β) (g : α → β)
    (l : List α) (h : ∀ a ∈ l, f a = .ok (g a)) :
    promiseAll (l.map f) = .ok (l.map g) := by
  induction l with
  | nil => rfl
  | cons a t ih =>
    have ha : f a = .ok (g a) := h a (List.mem_cons_self a t)
    have ht : promiseAll (t.map f) = .ok (t.map g) :=
      ih (fun b hb => h b (List.mem_cons_of_mem a hb))
    simp [List.map_cons, ha, promiseAll, ht, Except.map]

theorem zipWith_map_self {α β γ : Type} (f : α → β → γ) (g : α → β)
    (l : List α) : List.zipWith f l (l.map g) = l.map (fun a => f a (g a)) := by
  induction l with
  | nil => rfl
  | cons a t ih => simp [ih]

theorem range_map_succ {α : Type} (f : ℕ → α) (n : ℕ) :
    (List.range (n + 1)).map f = f 0 :: (List.range n).map (fun k => f (k + 1)) := by
  rw [List.range_succ_eq_map, List.map_cons, List.map_map]
  rfl

theorem cons_eq_range_map {α : Type} (x : α) (f g : ℕ → α) (n : ℕ)
    (h0 : x = g 0) (hs : ∀ j, j < n → f j = g (j + 1)) :
    x :: (List.range n).map f = (List.range (n + 1)).map g := by
  rw [range_map_succ, ← h0]
  congr 1
  apply List.map_congr_left
  intro j hj
  exact hs j (List.mem_range.mp hj)

/-- `getBatchPredictions` succeeds pointwise when the underlying fetch
always succeeds with result `g p`. -/
theorem getBatchPredictions_ok (fetch : Fetch) (g : Payload → PredResult)
    (hfetch : ∀ ep p, fetch ep p = .ok (g p)) (payloads : List Payload)
    (useTuned : Bool) :
    getBatchPredictions fetch payloads useTuned = .ok (payloads.map g) := by
  unfold getBatchPredictions
  apply promiseAll_map_ok
  intro p _
  cases useTuned <;> simp [getPrediction, getTunedPrediction, hfetch]

/-- Trace of the chunk loop when every dispatched chunk succeeds, with the
underlying per-payload result given by `g`. -/
theorem processChunks_ok_aux (bp : List Payload → Except String (List PredResult))
    (mk : DataRow → Payload) (total : ℕ) (g : Payload → PredResult)
    (hok : ∀ ps, bp ps = .ok (ps.map g)) :
    ∀ (fuel : ℕ) (rows : List DataRow) (i : ℕ), rows.length ≤ fuel →
      processChunks bp mk total fuel rows i =
        { calls := (List.range (numChunks rows.length)).map
            (fun k => ((rows.drop (k * batchSize)).take batchSize).map mk),
          results := rows.map (fun row => mkResultRow row (g (mk row))),
          progress := (List.range (numChunks rows.length)).map
            (fun k => (((i + min ((k + 1) * batchSize) rows.length : ℕ) : ℚ) / (total : ℚ)) * 100),
          error := none } := by
  intro fuel
  induction fuel with
  | zero =>
    intro rows i hlen
    cases rows with
    | nil => simp [processChunks, numChunks, batchSize]
    | cons r rs => simp at hlen
  | succ fuel ih =>
    intro rows i hlen
    cases rows with
    | nil => simp [processChunks, numChunks, batchSize]
    | cons r rs =>
      have hrest : ((r :: rs).drop batchSize).length ≤ fuel := by
        simp only [List.length_drop, List.length_cons, batchSize] at hlen ⊢
        omega
      have ihr := ih ((r :: rs).drop batchSize)
        (i + ((r :: rs).take batchSize).length) hrest
      have hnc : numChunks (r :: rs).length =
          numChunks (((r :: rs).drop batchSize).length) + 1 := by
        simp only [numChunks, batchSize, List.length_drop, List.length_cons]
        omega
      simp only [processChunks, hok]
      rw [ihr, hnc, range_map_succ, range_map_succ]
      simp only [BatchOutcome.mk.injEq, List.cons.injEq]
      refine ⟨⟨?_, ?_⟩, ?_, ⟨?_, ?_⟩, trivial⟩
      · simp
      · apply List.map_congr_left
        intro k _
        rw [List.drop_drop]
        have he2 : batchSize + k * batchSize = (k + 1) * batchSize := by ring
        rw [he2]
      · rw [List.map_map, zipWith_map_self]
        simp only [Function.comp_apply]
        rw [← List.map_append, List.take_append_drop]
      · have hh : (List.take batchSize (r :: rs)).length =
            min ((0 + 1) * batchSize) (r :: rs).length := by
          simp [List.length_take]
        rw [hh]
      · apply List.map_congr_left
        intro k hk
        have hk2 := List.mem_range.mp hk
        simp only [numChunks, batchSize, List.length_drop, List.length_cons] at hk2
        have he : i + (List.take batchSize (r :: rs)).length +
            min ((k + 1) * batchSize) ((List.drop batchSize (r :: rs)).length) =
            i + min ((k + 1 + 1) * batchSize) (r :: rs).length := by
          simp only [List.length_take, List.length_drop, List.length_cons, batchSize]
          omega
        rw [he]

/-- Trace of the chunk loop when chunks `0 .. k-1` succeed and chunk `k`
fails: the failing chunk is dispatched, no later chunk is, only the earlier
chunks' results and progress reports survive, and the error names the
failing chunk's starting row offset. -/
theorem processChunks_fail (bp : List Payload → Except String (List PredResult))
    (mk : DataRow → Payload) (total : ℕ) (g : Payload → PredResult) (msg : String) :
    ∀ (k : ℕ) (fuel : ℕ) (rows : List DataRow) (i : ℕ),
      rows.length ≤ fuel →
      k * batchSize < rows.length →
      (∀ j, j < k → bp (((rows.drop (j * batchSize)).take batchSize).map mk) =
        .ok ((((rows.drop (j * batchSize)).take batchSize).map mk).map g)) →
      bp (((rows.drop (k * batchSize)).take batchSize).map mk) = .error msg →
      processChunks bp mk total fuel rows i =
        { calls := (List.range (k + 1)).map
            (fun j => ((rows.drop (j * batchSize)).take batchSize).map mk),
          results := (rows.take (k * batchSize)).map
            (fun row => mkResultRow row (g (mk row))),
          progress := (List.range k).map
            (fun j => (((i + (j + 1) * batchSize : ℕ) : ℚ) / (total : ℚ)) * 100),
          error := some (.chunkFailed (i + k * batchSize + 1) msg) } := by
  intro k
  induction k with
  | zero =>
    intro fuel rows i hfuel hk hsucc hfail
    cases rows with
    | nil => simp at hk
    | cons r rs =>
      cases fuel with
      | zero => simp at hfuel
      | succ fuel =>
        simp only [Nat.zero_mul, List.drop_zero] at hfail
        simp only [processChunks, hfail]
        simp [List.range_succ]
  | succ k ihk =>
    intro fuel rows i hfuel hk hsucc hfail
    cases rows with
    | nil => simp at hk
    | cons r rs =>
      cases fuel with
      | zero => simp at hfuel
      | succ fuel =>
      have hlen : batchSize ≤ (r :: rs).length := by
        simp only [List.length_cons]
        simp only [List.length_cons] at hk
        have : 1 * batchSize ≤ (k + 1) * batchSize := by
          apply Nat.mul_le_mul_right
          omega
        omega
      have hbl : (List.take batchSize (r :: rs)).length = batchSize := by
        simp only [List.length_take]
        omega
      have hs0 := hsucc 0 (Nat.succ_pos k)
      simp only [Nat.zero_mul, List.drop_zero] at hs0
      have ihr := ihk fuel ((r :: rs).drop batchSize) (i + batchSize) ?hfl ?hk2 ?hs2 ?hf2
      case hfl =>
        simp only [List.length_drop, List.length_cons, batchSize]
        simp only [List.length_cons] at hfuel
        omega
      case hk2 =>
        simp only [List.length_drop, List.length_cons, batchSize]
        simp only [List.length_cons, batchSize] at hk
        omega
      case hs2 =>
        intro j hj
        have := hsucc (j + 1) (by omega)
        rw [List.drop_drop]
        have he : batchSize + j * batchSize = (j + 1) * batchSize := by ring
        rw [he]
        exact this
      case hf2 =>
        rw [List.drop_drop]
        have he : batchSize + k * batchSize = (k + 1) * batchSize := by ring
        rw [he]
        exact hfail
      simp only [processChunks, hs0, hbl]
      rw [ihr]
      simp only [BatchOutcome.mk.injEq]
      refine ⟨?_, ?_, ?_, ?_⟩
      · apply cons_eq_range_map
        · simp
        · intro j _
          rw [List.drop_drop]
          have he2 : batchSize + j * batchSize = (j + 1) * batchSize := by ring
          rw [he2]
      · rw [List.map_map, zipWith_map_self]
        simp only [Function.comp_apply]
        rw [← List.map_append]
        have ht : List.take batchSize (r :: rs) ++
            List.take (k * batchSize) (List.drop batchSize (r :: rs)) =
            List.take ((k + 1) * batchSize) (r :: rs) := by
          rw [← List.take_add]
          congr 1
          ring
        rw [ht]
      · apply cons_eq_range_map
        · have he : i + batchSize = i + (0 + 1) * batchSize := by ring
          rw [he]
        · intro j _
          have he : i + batchSize + (j + 1) * batchSize = i + (j + 1 + 1) * batchSize := by
            ring
          rw [he]
      · have he : i + batchSize + k * batchSize + 1 = i + (k + 1) * batchSize + 1 := by
          ring
        rw [he]

/-- The error of the chunk loop, when present, is always a `chunkFailed`. -/
theorem processChunks_error_shape (bp : List Payload → Except String (List PredResult))
    (mk : DataRow → Payload) (total : ℕ) :
    ∀ (fuel : ℕ) (rows : List DataRow) (i : ℕ),
      (processChunks bp mk total fuel rows i).error = none ∨
      ∃ off msg, (processChunks bp mk total fuel rows i).error =
        some (.chunkFailed off msg) := by
  intro fuel
  induction fuel with
  | zero =>
    intro rows i
    cases rows with
    | nil => left; simp [processChunks]
    | cons r rs => left; simp [processChunks]
  | succ fuel ih =>
    intro rows i
    cases rows with
    | nil => left; simp [processChunks]
    | cons r rs =>
      cases hbp : bp ((List.take batchSize (r :: rs)).map mk) with
      | error msg =>
        right
        refine ⟨i + 1, msg, ?_⟩
        simp only [processChunks, hbp]
      | ok bres =>
        have := ih ((r :: rs).drop batchSize)
          (i + (List.take batchSize (r :: rs)).length)
        simp only [processChunks, hbp]
        exact this

/-- Flattening the consecutive `batchSize`-slices of a list recovers it. -/
theorem chunks_join {α : Type} :
    ∀ (n : ℕ) (l : List α), l.length = n →
      ((List.range (numChunks l.length)).map
        (fun k => (l.drop (k * batchSize)).take batchSize)).flatten = l := by
  intro n
  induction n using Nat.strong_induction_on with
  | _ n ih =>
    intro l hlen
    cases l with
    | nil => simp [numChunks, batchSize]
    | cons r rs =>
      have hrest : ((r :: rs).drop batchSize).length < n := by
        simp only [List.length_drop, List.length_cons, batchSize] at hlen ⊢
        omega
      have hnc : numChunks (r :: rs).length =
          numChunks (((r :: rs).drop batchSize).length) + 1 := by
        simp only [numChunks, batchSize, List.length_drop, List.length_cons]
        omega
      have ihr := ih _ hrest ((r :: rs).drop batchSize) rfl
      rw [hnc, range_map_succ, List.flatten_cons]
      have ht : (List.range (numChunks ((List.drop batchSize (r :: rs)).length))).map
          (fun k => List.take batchSize (List.drop ((k + 1) * batchSize) (r :: rs))) =
          (List.range (numChunks ((List.drop batchSize (r :: rs)).length))).map
          (fun k => List.take batchSize
            (List.drop (k * batchSize) (List.drop batchSize (r :: rs)))) := by
        apply List.map_congr_left
        intro j _
        rw [List.drop_drop]
        have he : batchSize + j * batchSize = (j + 1) * batchSize := by ring
        rw [he]
      rw [show (0 : ℕ) * batchSize = 0 from by ring, List.drop_zero, ht, ihr,
        List.take_append_drop]

theorem jsSplitAux_no_sep (sep : Char) :
    ∀ (p : JsStr), sep ∉ p → jsSplitAux sep p = (p, []) := by
  intro p
  induction p with
  | nil => intro _; rfl
  | cons c cs ih =>
    intro h
    have hc : ¬ c = sep := fun hcs => h (hcs ▸ List.mem_cons_self c cs)
    have hcs : sep ∉ cs := fun hm => h (List.mem_cons_of_mem c hm)
    simp [jsSplitAux, ih hcs, hc]

theorem jsSplitAux_append (sep : Char) :
    ∀ (p t : JsStr), sep ∉ p →
      jsSplitAux sep (p ++ sep :: t) =
        (p, (jsSplitAux sep t).1 :: (jsSplitAux sep t).2) := by
  intro p
  induction p with
  | nil =>
    intro t _
    simp [jsSplitAux]
  | cons c cs ih =>
    intro t h
    have hc : ¬ c = sep := fun hcs => h (hcs ▸ List.mem_cons_self c cs)
    have hcs : sep ∉ cs := fun hm => h (List.mem_cons_of_mem c hm)
    simp [jsSplitAux, ih t hcs, hc]

/-- `split` is a left inverse of joining with the separator, for pieces that
do not contain the separator. -/
theorem jsSplit_join (sep : Char) :
    ∀ (ps : List JsStr), ps ≠ [] → (∀ p ∈ ps, sep ∉ p) →
      jsSplit sep (joinSep sep ps) = ps := by
  intro ps
  induction ps with
  | nil => intro h _; exact absurd rfl h
  | cons p qs ih =>
    intro _ hall
    cases qs with
    | nil =>
      have hp : sep ∉ p := hall p (List.mem_cons_self p [])
      simp [joinSep, jsSplit, jsSplitAux_no_sep sep p hp]
    | cons q rest =>
      have hp : sep ∉ p := hall p (List.mem_cons_self _ _)
      have hall2 : ∀ x ∈ q :: rest, sep ∉ x :=
        fun x hx => hall x (List.mem_cons_of_mem p hx)
      have ihq := ih (by simp) hall2
      simp only [joinSep]
      unfold jsSplit
      rw [jsSplitAux_append sep p _ hp]
      unfold jsSplit at ihq
      rw [ihq]

theorem forall2_map_eq {α β : Type} (f : α → Option β) :
    ∀ {ps : List α} {ks : List β},
      List.Forall₂ (fun p k => f p = some k) ps ks → ps.map f = ks.map some := by
  intro ps ks h
  induction h with
  | nil => rfl
  | cons h1 _ ih => simp [h1, ih]

theorem pollRun_cleared (b : Bool)
    (resps : List (Except String TuningStatusResp)) :
    pollRun { pollingTaskId := none, isTuning := b } resps =
      ({ pollingTaskId := none, isTuning := b }, []) := by
  induction resps with
  | nil => rfl
  | cons x xs ih => simp [pollRun, pollTick, ih]

theorem pollRun_pending (t : String) (b : Bool) (n : ℕ) :
    pollRun { pollingTaskId := some t, isTuning := b }
      (List.replicate n (.ok .pending)) =
      ({ pollingTaskId := some t, isTuning := b },
       List.replicate n (.polled t)) := by
  induction n with
  | zero => rfl
  | succ n ih => simp [List.replicate_succ, pollRun, pollTick, ih]

theorem pollRun_append (s : PollState)
    (l1 l2 : List (Except String TuningStatusResp)) :
    pollRun s (l1 ++ l2) =
      ((pollRun (pollRun s l1).1 l2).1,
       (pollRun s l1).2 ++ (pollRun (pollRun s l1).1 l2).2) := by
  induction l1 generalizing s with
  | nil => simp [pollRun]
  | cons x xs ih => simp [pollRun, ih, List.append_assoc]

/-- Wrapper for `processChunks_ok_aux` at fuel `rows.length`, the fuel
every call site passes. -/
theorem processChunks_ok (bp : List Payload → Except String (List PredResult))
    (mk : DataRow → Payload) (total : ℕ) (g : Payload → PredResult)
    (hok : ∀ ps, bp ps = .ok (ps.map g)) (rows : List DataRow) (i : ℕ) :
    processChunks bp mk total rows.length rows i =
      { calls := (List.range (numChunks rows.length)).map
          (fun k => ((rows.drop (k * batchSize)).take batchSize).map mk),
        results := rows.map (fun row => mkResultRow row (g (mk row))),
        progress := (List.range (numChunks rows.length)).map
          (fun k => (((i + min ((k + 1) * batchSize) rows.length : ℕ) : ℚ) / (total : ℚ)) * 100),
        error := none } :=
  processChunks_ok_aux bp mk total g hok rows.length rows i (le_refl _)

/-- `promiseAll` success determines every element: same length, and each
input settled `ok` with the corresponding output. -/
theorem promiseAll_ok_spec {α : Type} :
    ∀ (es : List (Except String α)) (rs : List α), promiseAll es = .ok rs →
      rs.length = es.length ∧
      ∀ k (h1 : k < es.length) (h2 : k < rs.length), es[k] = .ok rs[k] := by
  intro es
  induction es with
  | nil =>
    intro rs h
    have : rs = [] := by
      simpa [promiseAll] using h.symm
    subst this
    exact ⟨rfl, fun k h1 _ => absurd h1 (by simp)⟩
  | cons e es ih =>
    intro rs h
    cases e with
    | error m => simp [promiseAll] at h
    | ok a =>
      cases hta : promiseAll es with
      | error m => simp [promiseAll, hta, Except.map] at h
      | ok ts =>
        have hrs : rs = a :: ts := by
          simp [promiseAll, hta, Except.map] at h
          exact h.symm
        subst hrs
        obtain ⟨hlen, hidx⟩ := ih ts hta
        refine ⟨by simp [hlen], ?_⟩
        intro k h1 h2
        cases k with
        | zero => rfl
        | succ k =>
          simp only [List.getElem_cons_succ]
          exact hidx k (by simpa using h1) (by simpa using h2)

/-- `promiseAll` rejects as a whole when any element rejects. -/
theorem promiseAll_error {α : Type} :
    ∀ (es : List (Except String α)) (msg : String), .error msg ∈ es →
      ∃ m2, promiseAll es = .error m2 := by
  intro es
  induction es with
  | nil => intro msg h; simp at h
  | cons e es ih =>
    intro msg h
    cases e with
    | error m => exact ⟨m, rfl⟩
    | ok a =>
      have hm : Except.error msg ∈ es := by
        rcases List.mem_cons.mp h with h1 | h1
        · exact absurd h1 (by simp)
        · exact h1
      obtain ⟨m2, hm2⟩ := ih msg hm
      exact ⟨m2, by simp [promiseAll, hm2, Except.map]⟩

theorem getElem?_range_map {α : Type} (f : ℕ → α) (n k : ℕ) (hk : k < n) :
    ((List.range n).map f)[k]? = some (f k) := by
  rw [List.getElem?_map, List.getElem?_range hk]
  rfl

/-! ## The claims -/

/-- C1: with N > 0 rows, all required columns present and every prediction
call succeeding, the batch runner issues `ceil(N/10)` chunks, reports after
the `k`-th chunk the progress `(min((k+1)*10, N) / N) * 100`, i.e.
`(rowsProcessedSoFar / N) * 100`, strictly below 100 after every chunk but
the last and exactly 100 after the last. -/
theorem claim_C1 (fetch : Fetch) (modelType : ModelType) (selectedModel : String)
    (r : DataRow) (rs : List DataRow) (g : Payload → PredResult)
    (hcols : missingColumnsOf modelType r = [])
    (hfetch : ∀ ep p, fetch ep p = .ok (g p)) :
    (runPredictions fetch modelType selectedModel (r :: rs)).error = none ∧
    numChunks (r :: rs).length = ((r :: rs).length + 9) / 10 ∧
    (runPredictions fetch modelType selectedModel (r :: rs)).calls.length =
      numChunks (r :: rs).length ∧
    (runPredictions fetch modelType selectedModel (r :: rs)).progress.length =
      numChunks (r :: rs).length ∧
    (∀ k, k < numChunks (r :: rs).length →
      (runPredictions fetch modelType selectedModel (r :: rs)).progress[k]? =
        some ((((min ((k + 1) * batchSize) (r :: rs).length : ℕ) : ℚ) /
          (((r :: rs).length : ℕ) : ℚ)) * 100)) ∧
    (∀ k q, k + 1 < numChunks (r :: rs).length →
      (runPredictions fetch modelType selectedModel (r :: rs)).progress[k]? = some q →
      q < 100) ∧
    (runPredictions fetch modelType selectedModel
      (r :: rs)).progress[numChunks (r :: rs).length - 1]? = some 100 := by
  have hbp : ∀ ps, getBatchPredictions fetch ps (useTunedOf selectedModel) =
      .ok (ps.map g) :=
    fun ps => getBatchPredictions_ok fetch g hfetch ps _
  have hrun : runPredictions fetch modelType selectedModel (r :: rs) =
      processChunks (fun ps => getBatchPredictions fetch ps (useTunedOf selectedModel))
        (mkPayload (modelIdOf modelType selectedModel) (activeFieldNames modelType))
        (r :: rs).length (r :: rs).length (r :: rs) 0 := by
    simp [runPredictions, hcols]
  rw [hrun, processChunks_ok _ _ _ g hbp]
  refine ⟨rfl, by simp only [numChunks, batchSize]; omega, by simp, by simp, ?_, ?_, ?_⟩
  · intro k hk
    rw [getElem?_range_map _ _ _ hk, Nat.zero_add]
  · intro k q hk hq
    have hk1 : k < numChunks (r :: rs).length := by omega
    rw [getElem?_range_map _ _ _ hk1] at hq
    have hfq := Option.some.inj hq
    have hlt : (k + 1) * batchSize < (r :: rs).length := by
      simp only [numChunks, batchSize, List.length_cons] at hk ⊢
      omega
    have hmin : 0 + min ((k + 1) * batchSize) (r :: rs).length =
        (k + 1) * batchSize := by
      omega
    rw [← hfq, hmin]
    have hpos : (0 : ℚ) < (((r :: rs).length : ℕ) : ℚ) := by
      have h0 : 0 < (r :: rs).length := by simp
      exact_mod_cast h0
    rw [div_mul_eq_mul_div, div_lt_iff₀ hpos]
    have hcast : ((((k + 1) * batchSize : ℕ) : ℚ)) < (((r :: rs).length : ℕ) : ℚ) := by
      exact_mod_cast hlt
    nlinarith
  · have hn1 : numChunks (r :: rs).length - 1 < numChunks (r :: rs).length := by
      simp only [numChunks, batchSize, List.length_cons]
      omega
    rw [getElem?_range_map _ _ _ hn1]
    have hmin : 0 + min ((numChunks (r :: rs).length - 1 + 1) * batchSize)
        (r :: rs).length = (r :: rs).length := by
      simp only [numChunks, batchSize, List.length_cons]
      omega
    rw [hmin]
    have hne : (((r :: rs).length : ℕ) : ℚ) ≠ 0 := by
      have h0 : 0 < (r :: rs).length := by simp
      exact_mod_cast Nat.pos_iff_ne_zero.mp h0
    rw [div_self hne, one_mul]

/-- Concrete data shared by witnesses: a fetch oracle that always answers
`CANDIDATE` with confidence 1/2, and simple Kepler rows. -/
def wFetch : Fetch :=
  fun _ _ => .ok { prediction := "CANDIDATE", confidence := 1/2, probabilities := [] }

def wPred : Payload → PredResult :=
  fun _ => { prediction := "CANDIDATE", confidence := 1/2, probabilities := [] }

def wRow : DataRow :=
  [("koi_period", .num 1), ("koi_time0bk", .num 1), ("koi_impact", .num 1),
   ("koi_duration", .num 1), ("koi_depth", .num 1), ("koi_prad", .num 1),
   ("koi_teq", .num 1), ("koi_insol", .num 1), ("koi_model_snr", .num 1),
   ("koi_steff", .num 1), ("koi_slogg", .num 1), ("koi_srad", .num 1),
   ("koi_kepmag", .num 1)]

/-- Witness for C1 on a single valid Kepler row. -/
theorem claim_C1_witness :
    (runPredictions wFetch ModelType.Kepler "default" [wRow]).error = none ∧
    numChunks 1 = 1 ∧
    (runPredictions wFetch ModelType.Kepler "default" [wRow]).calls.length = 1 ∧
    (runPredictions wFetch ModelType.Kepler "default"
      [wRow]).progress[numChunks 1 - 1]? = some 100 := by
  have h := claim_C1 wFetch ModelType.Kepler "default" wRow [] wPred
    (by decide) (fun ep p => rfl)
  exact ⟨h.1, h.2.1, h.2.2.1, h.2.2.2.2.2.2⟩

/-- C2: for every parsed spreadsheet input, an empty row list surfaces the
empty-file error and a first row lacking required columns surfaces the
missing-columns error naming exactly the absent columns; in both cases the
runner returns with an empty call list, i.e. before any prediction network
call, and the two errors are distinct. -/
theorem claim_C2 (fetch : Fetch) (modelType : ModelType) (selectedModel : String)
    (rows : List DataRow) :
    (rows = [] →
      runPredictions fetch modelType selectedModel rows =
        { calls := [], results := [], progress := [], error := some .emptyFile }) ∧
    (∀ r rs, rows = r :: rs → missingColumnsOf modelType r ≠ [] →
      runPredictions fetch modelType selectedModel rows =
        { calls := [], results := [], progress := [],
          error := some (.missingColumns (missingColumnsOf modelType r)) }) ∧
    (∀ cols, BatchError.emptyFile ≠ BatchError.missingColumns cols) := by
  refine ⟨?_, ?_, ?_⟩
  · intro h
    subst h
    rfl
  · intro r rs h hmc
    subst h
    simp [runPredictions, hmc]
  · intro cols h
    exact BatchError.noConfusion h

/-- Witness for C2 at concrete inputs: the empty file and a one-row file
whose single column matches no Kepler field. -/
theorem claim_C2_witness :
    (runPredictions (fun _ _ => Except.error "down") ModelType.Kepler "default" [] =
      { calls := [], results := [], progress := [], error := some .emptyFile }) ∧
    (runPredictions (fun _ _ => Except.error "down") ModelType.Kepler "default"
        [[("x", JsVal.num 1)]] =
      { calls := [], results := [], progress := [],
        error := some (.missingColumns
          (missingColumnsOf ModelType.Kepler [("x", JsVal.num 1)])) }) :=
  ⟨(claim_C2 (fun _ _ => Except.error "down") ModelType.Kepler "default" []).1 rfl,
   (claim_C2 (fun _ _ => Except.error "down") ModelType.Kepler "default"
      [[("x", JsVal.num 1)]]).2.1 [("x", JsVal.num 1)] [] rfl (by decide)⟩

/-- C5: the tuning poll fires on a fixed 5000 ms interval; any number of
`PENDING` responses leaves the task id set (polling continues indefinitely);
the first `SUCCESS` response reports the result, invokes the tuned-model
callback and clears the task id, after which no further poll is issued
whatever responses follow; `FAILURE` surfaces the error and likewise stops
polling. -/
theorem claim_C5 :
    pollIntervalMs = 5000 ∧
    (∀ (t : String) (b : Bool) (n : ℕ),
      pollRun { pollingTaskId := some t, isTuning := b }
        (List.replicate n (.ok .pending)) =
      ({ pollingTaskId := some t, isTuning := b },
       List.replicate n (.polled t))) ∧
    (∀ (t : String) (b : Bool) (n : ℕ) (mn : String) (acc : ℚ)
        (rest : List (Except String TuningStatusResp)),
      pollRun { pollingTaskId := some t, isTuning := b }
        (List.replicate n (.ok .pending) ++ .ok (.success mn acc) :: rest) =
      ({ pollingTaskId := none, isTuning := false },
       List.replicate n (.polled t) ++
         [.polled t, .successToast mn acc, .modelTunedCallback])) ∧
    (∀ (t : String) (b : Bool) (n : ℕ) (err : Option String)
        (rest : List (Except String TuningStatusResp)),
      pollRun { pollingTaskId := some t, isTuning := b }
        (List.replicate n (.ok .pending) ++ .ok (.failure err) :: rest) =
      ({ pollingTaskId := none, isTuning := false },
       List.replicate n (.polled t) ++
         [.polled t,
          .failureToast (err.getD "An unknown error occurred during tuning.")])) := by
  refine ⟨rfl, pollRun_pending, ?_, ?_⟩
  · intro t b n mn acc rest
    rw [pollRun_append, pollRun_pending]
    simp [pollRun, pollTick, pollRun_cleared]
  · intro t b n err rest
    rw [pollRun_append, pollRun_pending]
    simp [pollRun, pollTick, pollRun_cleared]

/-- C6: `tuneModel` posts to `/tune_model` a body whose `model` is the model
name lowercased and whose hyperparameters map `n_estimators` and `max_depth`
to the integer lists obtained by splitting each argument string on commas
and parsing each trimmed piece as a base-10 integer. -/
theorem claim_C6 (modelName : JsStr) (nPieces mPieces : List JsStr)
    (ns ms : List ℤ)
    (hn : nPieces ≠ []) (hm : mPieces ≠ [])
    (hnc : ∀ p ∈ nPieces, ',' ∉ p) (hmc : ∀ p ∈ mPieces, ',' ∉ p)
    (hns : List.Forall₂ (fun p k => jsParseInt (jsTrim p) = some k) nPieces ns)
    (hms : List.Forall₂ (fun p k => jsParseInt (jsTrim p) = some k) mPieces ms) :
    tuneModelRequest modelName (joinSep ',' nPieces) (joinSep ',' mPieces) =
      { url := "/tune_model",
        model := modelName.map Char.toLower,
        hyperparameters :=
          [("n_estimators", ns.map some), ("max_depth", ms.map some)] } := by
  unfold tuneModelRequest parseStringList
  rw [jsSplit_join ',' nPieces hn hnc, jsSplit_join ',' mPieces hm hmc,
    forall2_map_eq _ hns, forall2_map_eq _ hms]

/-- Witness for C6 at concrete comma-separated integer strings
`"100, 200"` and `"5, 10 "`. -/
theorem claim_C6_witness :
    tuneModelRequest "Kepler".toList
        (joinSep ',' ["100".toList, " 200".toList])
        (joinSep ',' ["5".toList, " 10 ".toList]) =
      { url := "/tune_model",
        model := "Kepler".toList.map Char.toLower,
        hyperparameters :=
          [("n_estimators", ([100, 200] : List ℤ).map some),
           ("max_depth", ([5, 10] : List ℤ).map some)] } :=
  claim_C6 "Kepler".toList ["100".toList, " 200".toList]
    ["5".toList, " 10 ".toList] [100, 200] [5, 10]
    (by decide) (by decide) (by decide) (by decide)
    (List.Forall₂.cons (by decide) (List.Forall₂.cons (by decide) List.Forall₂.nil))
    (List.Forall₂.cons (by decide) (List.Forall₂.cons (by decide) List.Forall₂.nil))

/-- C7: whenever the selected schema changes, the effect first resets the
form to the new schema's field set with initial empty values (13 Kepler
fields, 11 TESS fields), clears the prior prediction and resets the selected
model, before anything else it may do. -/
theorem claim_C7 (modelType : ModelType) (searchParams : List (String × String)) :
    (∃ rest, schemaChangeEffect modelType searchParams =
      PageAction.resetForm (getInitialValues
        (if modelType = .Kepler then keplerFields else tessFields)) ::
      PageAction.clearPrediction :: PageAction.setSelectedModel "default" :: rest) ∧
    keplerFields.length = 13 ∧ tessFields.length = 11 ∧
    (∀ fields, (getInitialValues fields).map Prod.fst =
      fields.map (fun f => f.name)) ∧
    (∀ fields, (getInitialValues fields).map Prod.snd =
      List.replicate fields.length "") := by
  refine ⟨?_, by decide, by decide, ?_, ?_⟩
  · simp only [schemaChangeEffect]
    repeat' split
    all_goals exact ⟨_, rfl⟩
  · intro fields
    simp only [getInitialValues, List.map_map]
    rfl
  · intro fields
    induction fields with
    | nil => rfl
    | cons f fs ih =>
      simp only [getInitialValues, List.map_cons, List.length_cons,
        List.replicate_succ] at ih ⊢
      rw [ih]

/-- C10: `getBatchPredictions` is order- and length-preserving — a success
returns one result per payload in order, each obtained from the endpoint
selected by `useTuned` (`/predict_tuned` when true, `/predict` otherwise) —
and it rejects as a whole as soon as any single request rejects. -/
theorem claim_C10 (fetch : Fetch) (payloads : List Payload) (useTuned : Bool) :
    (∀ rets, getBatchPredictions fetch payloads useTuned = .ok rets →
      rets.length = payloads.length ∧
      ∀ k (hk : k < payloads.length) (hk2 : k < rets.length),
        fetch (if useTuned then "/predict_tuned" else "/predict") payloads[k] =
          .ok rets[k]) ∧
    (∀ p msg, p ∈ payloads →
      fetch (if useTuned then "/predict_tuned" else "/predict") p = .error msg →
      ∃ msg2, getBatchPredictions fetch payloads useTuned = .error msg2) ∧
    (∀ p, getPrediction fetch p = fetch "/predict" p) ∧
    (∀ p, getTunedPrediction fetch p = fetch "/predict_tuned" p) := by
  have hf : ∀ p, (if useTuned then getTunedPrediction fetch p else getPrediction fetch p) =
      fetch (if useTuned then "/predict_tuned" else "/predict") p := by
    intro p
    cases useTuned <;> rfl
  refine ⟨?_, ?_, fun _ => rfl, fun _ => rfl⟩
  · intro rets h
    obtain ⟨hlen, hidx⟩ := promiseAll_ok_spec _ rets h
    refine ⟨by simpa using hlen, ?_⟩
    intro k hk hk2
    have := hidx k (by simpa using hk) hk2
    rw [List.getElem_map, hf] at this
    exact this
  · intro p msg hp hfp
    have hmem : Except.error msg ∈ payloads.map
        (fun q => if useTuned then getTunedPrediction fetch q else getPrediction fetch q) := by
      rw [← hfp, ← hf p]
      exact List.mem_map_of_mem _ hp
    unfold getBatchPredictions
    exact promiseAll_error _ msg hmem

/-- Concrete data for the C10 witness: a fetch that always succeeds and
echoes the endpoint it was called on. -/
def w10Fetch : Fetch :=
  fun ep _ => .ok { prediction := ep, confidence := 1, probabilities := [] }

def w10Payload : Payload := { model := "m", features := [] }

def w10Result : PredResult :=
  { prediction := "/predict", confidence := 1, probabilities := [] }

/-- Witness for C10 at a concrete one-payload list: a fetch that always
succeeds, and the untuned route. -/
theorem claim_C10_witness :
    ([w10Result].length = [w10Payload].length) ∧
    ∀ k (hk : k < [w10Payload].length) (hk2 : k < [w10Result].length),
      w10Fetch (if false then "/predict_tuned" else "/predict") [w10Payload][k] =
        .ok [w10Result][k] :=
  (claim_C10 w10Fetch [w10Payload] false).1 [w10Result] rfl

/-- C3: if every chunk before the `k`-th succeeds and the `k`-th chunk's
prediction call fails, the batch runner dispatches exactly chunks `0 .. k`,
surfaces a `chunkFailed` error naming the failing chunk's starting row
offset `k*10 + 1`, and retains exactly the result rows of the chunks that
completed before the failure. -/
theorem claim_C3 (fetch : Fetch) (modelType : ModelType) (selectedModel : String)
    (r : DataRow) (rs : List DataRow) (g : Payload → PredResult) (k : ℕ) (msg : String)
    (hcols : missingColumnsOf modelType r = [])
    (hk : k * batchSize < (r :: rs).length)
    (hsucc : ∀ j, j < k →
      getBatchPredictions fetch (chunkPayloads modelType selectedModel (r :: rs) j)
        (useTunedOf selectedModel) =
      .ok ((chunkPayloads modelType selectedModel (r :: rs) j).map g))
    (hfail : getBatchPredictions fetch (chunkPayloads modelType selectedModel (r :: rs) k)
        (useTunedOf selectedModel) = .error msg) :
    runPredictions fetch modelType selectedModel (r :: rs) =
      { calls := (List.range (k + 1)).map (chunkPayloads modelType selectedModel (r :: rs)),
        results := ((r :: rs).take (k * batchSize)).map
          (fun row => mkResultRow row (g (mkPayload (modelIdOf modelType selectedModel)
            (activeFieldNames modelType) row))),
        progress := (List.range k).map
          (fun j => ((((j + 1) * batchSize : ℕ) : ℚ) / (((r :: rs).length : ℕ) : ℚ)) * 100),
        error := some (.chunkFailed (k * batchSize + 1) msg) } := by
  have hrun : runPredictions fetch modelType selectedModel (r :: rs) =
      processChunks (fun ps => getBatchPredictions fetch ps (useTunedOf selectedModel))
        (mkPayload (modelIdOf modelType selectedModel) (activeFieldNames modelType))
        (r :: rs).length (r :: rs).length (r :: rs) 0 := by
    simp [runPredictions, hcols]
  rw [hrun, processChunks_fail _ _ _ g msg k (r :: rs).length (r :: rs) 0
    (le_refl _) hk hsucc hfail]
  simp only [Nat.zero_add]
  rfl

/-- Witness for C3: eleven valid Kepler rows against a fetch oracle that
fails on every call, so the very first chunk fails at row offset 1. -/
theorem claim_C3_witness :
    runPredictions (fun _ _ => Except.error "boom") ModelType.Kepler "default"
      (List.replicate 11 wRow) =
      { calls := (List.range (0 + 1)).map
          (chunkPayloads ModelType.Kepler "default" (List.replicate 11 wRow)),
        results := ((List.replicate 11 wRow).take (0 * batchSize)).map
          (fun row => mkResultRow row (wPred (mkPayload
            (modelIdOf ModelType.Kepler "default")
            (activeFieldNames ModelType.Kepler) row))),
        progress := (List.range 0).map
          (fun j => ((((j + 1) * batchSize : ℕ) : ℚ) /
            (((List.replicate 11 wRow).length : ℕ) : ℚ)) * 100),
        error := some (.chunkFailed (0 * batchSize + 1) "boom") } := by
  have h9 : List.replicate 11 wRow = wRow :: List.replicate 10 wRow := rfl
  rw [h9]
  exact claim_C3 (fun _ _ => Except.error "boom") ModelType.Kepler "default"
    wRow (List.replicate 10 wRow) wPred 0 "boom" (by decide) (by decide)
    (fun j hj => absurd hj (Nat.not_lt_zero j)) rfl

/-- C4: under the hypotheses of C1, the dispatched chunks are exactly the
consecutive `batchSize`-slices of the row list, each chunk holds one payload
per row built from the active schema's field names in order, their
concatenation is one payload per input row in order, and each chunk's
`getBatchPredictions` call resolves all of its per-row calls before the
next chunk is dispatched. -/
theorem claim_C4 (fetch : Fetch) (modelType : ModelType) (selectedModel : String)
    (r : DataRow) (rs : List DataRow) (g : Payload → PredResult)
    (hcols : missingColumnsOf modelType r = [])
    (hfetch : ∀ ep p, fetch ep p = .ok (g p)) :
    (runPredictions fetch modelType selectedModel (r :: rs)).calls =
      (List.range (numChunks (r :: rs).length)).map
        (chunkPayloads modelType selectedModel (r :: rs)) ∧
    (∀ k, chunkPayloads modelType selectedModel (r :: rs) k =
      (((r :: rs).drop (k * batchSize)).take batchSize).map
        (mkPayload (modelIdOf modelType selectedModel) (activeFieldNames modelType))) ∧
    (∀ row, mkPayload (modelIdOf modelType selectedModel) (activeFieldNames modelType) row =
      { model := modelIdOf modelType selectedModel,
        features := (activeFieldNames modelType).map (fun nm => toFeature (jsGet row nm)) }) ∧
    (runPredictions fetch modelType selectedModel (r :: rs)).calls.flatten =
      (r :: rs).map
        (mkPayload (modelIdOf modelType selectedModel) (activeFieldNames modelType)) ∧
    (∀ ps, getBatchPredictions fetch ps (useTunedOf selectedModel) = .ok (ps.map g)) := by
  have hbp : ∀ ps, getBatchPredictions fetch ps (useTunedOf selectedModel) =
      .ok (ps.map g) :=
    fun ps => getBatchPredictions_ok fetch g hfetch ps _
  have hrun : runPredictions fetch modelType selectedModel (r :: rs) =
      processChunks (fun ps => getBatchPredictions fetch ps (useTunedOf selectedModel))
        (mkPayload (modelIdOf modelType selectedModel) (activeFieldNames modelType))
        (r :: rs).length (r :: rs).length (r :: rs) 0 := by
    simp [runPredictions, hcols]
  rw [hrun, processChunks_ok _ _ _ g hbp]
  refine ⟨rfl, fun k => rfl, fun row => rfl, ?_, hbp⟩
  have h1 : (List.range (numChunks (r :: rs).length)).map
      (fun k => (((r :: rs).drop (k * batchSize)).take batchSize).map
        (mkPayload (modelIdOf modelType selectedModel) (activeFieldNames modelType))) =
      ((List.range (numChunks (r :: rs).length)).map
        (fun k => ((r :: rs).drop (k * batchSize)).take batchSize)).map
        (List.map (mkPayload (modelIdOf modelType selectedModel)
          (activeFieldNames modelType))) := by
    rw [List.map_map]
    rfl
  show ((List.range (numChunks (r :: rs).length)).map
      (fun k => (((r :: rs).drop (k * batchSize)).take batchSize).map
        (mkPayload (modelIdOf modelType selectedModel)
          (activeFieldNames modelType)))).flatten =
      (r :: rs).map (mkPayload (modelIdOf modelType selectedModel)
        (activeFieldNames modelType))
  rw [h1, ← List.map_flatten,
    chunks_join (r :: rs).length (r :: rs) rfl]

/-- Witness for C4 on a single valid Kepler row. -/
theorem claim_C4_witness :
    (runPredictions wFetch ModelType.Kepler "default" [wRow]).calls =
      (List.range (numChunks 1)).map
        (chunkPayloads ModelType.Kepler "default" [wRow]) ∧
    (runPredictions wFetch ModelType.Kepler "default" [wRow]).calls.flatten =
      [wRow].map (mkPayload (modelIdOf ModelType.Kepler "default")
        (activeFieldNames ModelType.Kepler)) := by
  have h := claim_C4 wFetch ModelType.Kepler "default" wRow [] wPred
    (by decide) (fun ep p => rfl)
  exact ⟨h.1, h.2.2.2.1⟩

/-- C8 (amended): batch column validation inspects only the first row's
keys — when the first row has every required column, no validation error is
possible whatever the later rows contain, the outcome's error being `none`
or a `chunkFailed`; string cells are converted with `parseFloat`, so a
non-numeric string cell yields `NaN` in the dispatched feature vector,
while a cell missing from a row is read as `undefined` and passed through
unchanged (not `NaN`); no client-side numeric or positivity check is
applied to batch rows. -/
theorem claim_C8 (fetch : Fetch) (modelType : ModelType) (selectedModel : String)
    (r : DataRow) (rs : List DataRow)
    (hcols : missingColumnsOf modelType r = []) :
    ((runPredictions fetch modelType selectedModel (r :: rs)).error = none ∨
      ∃ off msg, (runPredictions fetch modelType selectedModel (r :: rs)).error =
        some (.chunkFailed off msg)) ∧
    (∀ s, jsParseFloat s = none → toFeature (.str s) = .nan) ∧
    (∀ s q, jsParseFloat s = some q → toFeature (.str s) = .num q) ∧
    toFeature .undef = .undef ∧
    (∀ (row : DataRow) nm, row.lookup nm = none → jsGet row nm = .undef) ∧
    (∀ modelId fieldNames row, mkPayload modelId fieldNames row =
      { model := modelId,
        features := fieldNames.map (fun nm => toFeature (jsGet row nm)) }) := by
  refine ⟨?_, ?_, ?_, rfl, ?_, fun _ _ _ => rfl⟩
  · have hrun : runPredictions fetch modelType selectedModel (r :: rs) =
        processChunks (fun ps => getBatchPredictions fetch ps (useTunedOf selectedModel))
          (mkPayload (modelIdOf modelType selectedModel) (activeFieldNames modelType))
          (r :: rs).length (r :: rs).length (r :: rs) 0 := by
      simp [runPredictions, hcols]
    rw [hrun]
    exact processChunks_error_shape _ _ _ (r :: rs).length (r :: rs) 0
  · intro s h
    simp [toFeature, h]
  · intro s q h
    simp [toFeature, h]
  · intro row nm h
    simp [jsGet, h]

/-- `wRow` with its first column (`koi_period`) removed: a later batch row
missing a required column. -/
def wRowMissing : DataRow := wRow.drop 1

/-- Counterexample to C8 as stated: with a first row carrying all 13 Kepler
columns and a second row missing `koi_period`, validation passes and the
second dispatched payload's first feature is `undefined`, not `NaN` — a
missing cell is not converted with `parseFloat`. -/
theorem claim_C8_counterexample :
    (runPredictions wFetch ModelType.Kepler "default" [wRow, wRowMissing]).error =
      none ∧
    ((((runPredictions wFetch ModelType.Kepler "default"
        [wRow, wRowMissing]).calls.headD []).getD 1
        { model := "", features := [] }).features.headD .nan) = .undef ∧
    JsVal.undef ≠ JsVal.nan := by
  refine ⟨by decide, by decide, by decide⟩

/-- Witness for C8 (amended) at the counterexample's input: validation
passes with the second row lacking a column, a non-numeric string cell
becomes `NaN`, and a missing cell's `undefined` passes through. -/
theorem claim_C8_witness :
    ((runPredictions wFetch ModelType.Kepler "default" [wRow, wRowMissing]).error =
        none ∨
      ∃ off msg, (runPredictions wFetch ModelType.Kepler "default"
        [wRow, wRowMissing]).error = some (.chunkFailed off msg)) ∧
    toFeature (.str "abc") = .nan ∧
    toFeature .undef = .undef := by
  have h := claim_C8 wFetch ModelType.Kepler "default" wRow [wRowMissing] (by decide)
  exact ⟨h.1, h.2.1 "abc" (by decide), h.2.2.2.1⟩

/-- C9: every batch result row stores as its `confidence` not the backend's
scalar but that scalar multiplied by 100 and rounded to two decimal places
(`toFixed(2)` then `parseFloat`); `toFixed2` is within 1/200 of its input
and always a multiple of 1/100; the `prediction` and `confidence` fields
are set from the backend result, and every other column of the original row
is carried over unchanged. -/
theorem claim_C9 (fetch : Fetch) (modelType : ModelType) (selectedModel : String)
    (r : DataRow) (rs : List DataRow) (g : Payload → PredResult)
    (hcols : missingColumnsOf modelType r = [])
    (hfetch : ∀ ep p, fetch ep p = .ok (g p)) :
    (runPredictions fetch modelType selectedModel (r :: rs)).results =
      (r :: rs).map (fun row => mkResultRow row
        (g (mkPayload (modelIdOf modelType selectedModel)
          (activeFieldNames modelType) row))) ∧
    (∀ (row : DataRow) (b : PredResult),
      (mkResultRow row b).get "confidence" = .num (toFixed2 (b.confidence * 100))) ∧
    (∀ (row : DataRow) (b : PredResult),
      (mkResultRow row b).get "prediction" = .str b.prediction) ∧
    (∀ x : ℚ, x - 1/200 < toFixed2 x ∧ toFixed2 x ≤ x + 1/200) ∧
    (∀ x : ℚ, ∃ m : ℤ, toFixed2 x * 100 = (m : ℚ)) ∧
    (∀ (row : DataRow) (b : PredResult) (key : String),
      key ≠ "prediction" → key ≠ "confidence" →
      (mkResultRow row b).get key = jsGet row key) := by
  have hbp : ∀ ps, getBatchPredictions fetch ps (useTunedOf selectedModel) =
      .ok (ps.map g) :=
    fun ps => getBatchPredictions_ok fetch g hfetch ps _
  have hrun : runPredictions fetch modelType selectedModel (r :: rs) =
      processChunks (fun ps => getBatchPredictions fetch ps (useTunedOf selectedModel))
        (mkPayload (modelIdOf modelType selectedModel) (activeFieldNames modelType))
        (r :: rs).length (r :: rs).length (r :: rs) 0 := by
    simp [runPredictions, hcols]
  refine ⟨?_, fun row b => rfl, fun row b => rfl, ?_, ?_, ?_⟩
  · rw [hrun, processChunks_ok _ _ _ g hbp]
  · intro x
    have hb : ∀ q : ℚ, ((Rat.floor q : ℤ) : ℚ) = ((⌊q⌋ : ℤ) : ℚ) := fun _ => rfl
    have h1 : ((x * 100 + 1/2).floor : ℚ) ≤ x * 100 + 1/2 := by
      rw [hb]
      exact Int.floor_le _
    have h2 : x * 100 + 1/2 - 1 < ((x * 100 + 1/2).floor : ℚ) := by
      rw [hb]
      exact Int.sub_one_lt_floor _
    unfold toFixed2
    constructor
    · linarith
    · linarith
  · intro x
    refine ⟨(x * 100 + 1/2).floor, ?_⟩
    unfold toFixed2
    rw [div_mul_cancel₀]
    norm_num
  · intro row b key h1 h2
    simp only [ResultRow.get, h1, h2, if_false]
    rfl

/-- A concrete backend result used by the C9 witness. -/
def wB : PredResult :=
  { prediction := "CONFIRMED", confidence := 0.876, probabilities := [] }

/-- Witness for C9: a one-row Kepler run, plus concrete field facts for a
backend result with confidence 0.876. -/
theorem claim_C9_witness :
    (runPredictions wFetch ModelType.Kepler "default" [wRow]).results =
      [wRow].map (fun row => mkResultRow row
        (wPred (mkPayload (modelIdOf ModelType.Kepler "default")
          (activeFieldNames ModelType.Kepler) row))) ∧
    (mkResultRow wRow wB).get "confidence" =
      .num (toFixed2 (wB.confidence * 100)) ∧
    (mkResultRow wRow wB).get "koi_period" = jsGet wRow "koi_period" := by
  have h := claim_C9 wFetch ModelType.Kepler "default" wRow [] wPred
    (by decide) (fun ep p => rfl)
  exact ⟨h.1, h.2.1 wRow wB,
    h.2.2.2.2.2 wRow wB "koi_period" (by decide) (by decide)⟩

end ExoPredict
